import Mathlib

/-!
# Verification of the ThreatMapper serving-layer core

Shallow embedding of the two source files under scrutiny:

* `deepfence_agent/tools/apache/scope/report/sets.go` — the `Sets`
  (string → set-of-strings) value type and its backing `CustomHashmap`.
  In this fork the backing store is a single process-global *mutable*
  hash map protected by a mutex: `CustomHashmap.Set` assigns into the
  shared Go map in place and returns the same receiver, and `emptySets`
  (hence `MakeSets`) always references the one global `customHashMap`
  singleton.  We model that store as an explicit heap (addresses to
  association lists); a `Sets` value is a possibly-nil reference into
  the heap, and every mutating operation takes and returns the heap.

* the `app` handler file (`part_000`) — `WriteToFile`/`fileType`,
  `handleNode`, `handleWebsocket` and `websocketState.update`.
  External collaborators (codec encoders, gzip, `time.ParseDuration`,
  `xfer.Upgrade`, the renderer registry, `detailed.*`) are parameters
  of the embedded functions.
-/

namespace ThreatMapper

/-! ## StringSet

`StringSet` lives in `string_set.go`, which is not among the provided
source files.  Modelled from the spec: an immutable set of unique
strings kept in sorted order, supporting `Add`, `Contains`, and a
set-union `Merge` that also reports whether the union equals the
receiver (the "unchanged" flag that `Sets.Add`/`Sets.Merge` use to
skip replacing a branch). -/

abbrev StringSet := List String

/-- `MakeStringSet()` with no arguments: the empty string set. -/
def MakeStringSet : StringSet := []

/-- `StringSet.Contains`. -/
def StringSet.Contains (s : StringSet) (x : String) : Bool := s.contains x

/-- Sorted insertion, skipping an element that is already present. -/
def ssInsert (x : String) : List String → List String
  | [] => [x]
  | a :: s => if x < a then x :: a :: s else if a < x then a :: ssInsert x s else a :: s

/-- `StringSet.Add`: insert one string, keeping the sorted-set shape. -/
def StringSet.Add (s : StringSet) (x : String) : StringSet := ssInsert x s

/-- Sorted-merge set union of two string lists. -/
def ssUnion : List String → List String → List String
  | [], t => t
  | s, [] => s
  | a :: s, b :: t =>
    if a < b then a :: ssUnion s (b :: t)
    else if b < a then b :: ssUnion (a :: s) t
    else a :: ssUnion s t
termination_by s t => s.length + t.length

/-- `StringSet.Merge`: returns the set union together with the
"unchanged" flag, true when the union equals the receiver (i.e. the
argument added nothing), which callers use to short-circuit. -/
def StringSet.Merge (s other : StringSet) : StringSet × Bool :=
  let u := ssUnion s other
  (u, decide (u = s))

/-! ## Association-list helpers (Go `map[string]V`) -/

/-- Lookup in an association list (a Go map read). -/
def alookup {β : Type} (k : String) : List (String × β) → Option β
  | [] => none
  | p :: l => if p.1 = k then some p.2 else alookup k l

/-- Store under a key (a Go map assignment): replace the first entry
with this key, or append a fresh entry. -/
def aset {β : Type} : List (String × β) → String → β → List (String × β)
  | [], k, v => [(k, v)]
  | p :: l, k, v => if p.1 = k then (k, v) :: l else p :: aset l k v

/-- Remove a key (Go `delete`). -/
def adel {β : Type} (l : List (String × β)) (k : String) : List (String × β) :=
  l.filter fun p => p.1 ≠ k

/-! ## The heap of CustomHashmap objects

`CustomHashmap` wraps a mutable Go `map[string]interface{}` whose
values are `StringSet`s (sets.go stores nothing else in it).  `Set`,
`UnsafeMutableSet` and `Delete` all mutate `cm.Map` in place and return
the same `cm`.  We model object identity with `Nat` addresses and the
mutable store as a total function from addresses to map contents. -/

abbrev GoMap := List (String × StringSet)

/-- The mutable store: contents of every `CustomHashmap` by address. -/
structure Heap where
  maps : Nat → GoMap

/-- `cm.Set(key, value)` at address `a` (in-place update, same receiver). -/
def Heap.hmSet (h : Heap) (a : Nat) (k : String) (v : StringSet) : Heap :=
  ⟨fun b => if b = a then aset (h.maps a) k v else h.maps b⟩

/-- `cm.Delete(key)` at address `a` (in-place, same receiver). -/
def Heap.hmDelete (h : Heap) (a : Nat) (k : String) : Heap :=
  ⟨fun b => if b = a then adel (h.maps a) k else h.maps b⟩

/-- `cm.Lookup(key)` at address `a`. -/
def Heap.hmLookup (h : Heap) (a : Nat) (k : String) : Option StringSet :=
  alookup k (h.maps a)

/-- `cm.Size()` at address `a`. -/
def Heap.hmSize (h : Heap) (a : Nat) : Nat := (h.maps a).length

/-- A heap is well formed when no map holds duplicate keys (Go maps
cannot). -/
def Heap.WF (h : Heap) : Prop := ∀ a, ((h.maps a).map Prod.fst).Nodup

/-! ## Sets (sets.go) -/

/-- `Sets.psMap`: either the nil interface (zero-value `Sets{}`) or a
reference to a `CustomHashmap` in the heap. -/
abbrev Sets := Option Nat

/-- Address of the process-global `customHashMap` singleton.
`NewCustomHashMap` returns this same object every time. -/
def globalMapAddr : Nat := 0

/-- `emptySets = Sets{NewCustomHashMap()}`: references the global
singleton, it is *not* a fresh empty map. -/
def emptySets : Sets := some globalMapAddr

/-- `MakeSets()` returns `emptySets`. -/
def MakeSets : Sets := emptySets

/-- The heap at process start: every `CustomHashmap` (in particular the
global singleton) is empty. -/
def initHeap : Heap := ⟨fun _ => []⟩

/-- `Sets.Lookup`. -/
def Sets.Lookup (h : Heap) (s : Sets) (k : String) : StringSet × Bool :=
  match s with
  | none => (MakeStringSet, false)
  | some a =>
    match h.hmLookup a k with
    | some v => (v, true)
    | none => (MakeStringSet, false)

/-- `Sets.Size`. -/
def Sets.Size (h : Heap) (s : Sets) : Nat :=
  match s with
  | none => 0
  | some a => h.hmSize a

/-- `Sets.Keys`. -/
def Sets.Keys (h : Heap) (s : Sets) : List String :=
  match s with
  | none => []
  | some a => (h.maps a).map Prod.fst

/-- `Sets.Add`: a nil receiver is replaced by `emptySets` (the global
singleton); if the key is present the stored set is merged with the
argument and, when unchanged, the receiver is returned as is;
otherwise `psMap.Set` mutates the backing map in place and the
returned `Sets` carries the very same reference. -/
def Sets.Add (h : Heap) (s : Sets) (k : String) (v : StringSet) : Sets × Heap :=
  let a := match s with | none => globalMapAddr | some a => a
  match h.hmLookup a k with
  | some existing =>
    let m := StringSet.Merge existing v
    if m.2 then (some a, h) else (some a, h.hmSet a k m.1)
  | none => (some a, h.hmSet a k v)

/-- `Sets.AddString`. -/
def Sets.AddString (h : Heap) (s : Sets) (k str : String) : Sets × Heap :=
  let a := match s with | none => globalMapAddr | some a => a
  let lv := Sets.Lookup h (some a) k
  if lv.2 && StringSet.Contains lv.1 str then (some a, h)
  else (some a, h.hmSet a k (StringSet.Add lv.1 str))

/-- `Sets.Delete`: a nil receiver yields `emptySets`; otherwise the
backing map is mutated in place (`CustomHashmap.Delete` never returns
a nil map, so the `IsNil` branch of the source is dead). -/
def Sets.Delete (h : Heap) (s : Sets) (k : String) : Sets × Heap :=
  match s with
  | none => (emptySets, h)
  | some a => (some a, h.hmDelete a k)

/-- One step of the `iter.ForEach` body inside `Sets.Merge`: merge the
visited entry into the `result` map at address `r`, skipping the store
when the union left the existing set unchanged. -/
def mergeStep (r : Nat) (h : Heap) (kv : String × StringSet) : Heap :=
  match h.hmLookup r kv.1 with
  | some existing =>
    let m := StringSet.Merge existing kv.2
    if m.2 then h else h.hmSet r kv.1 m.1
  | none => h.hmSet r kv.1 kv.2

/-- `Sets.Merge`: empty operands short-circuit; otherwise the smaller
map is iterated into the larger one, whose backing store is mutated in
place, and the returned `Sets` references that (already existing) map. -/
def Sets.Merge (h : Heap) (s other : Sets) : Sets × Heap :=
  let sSize := Sets.Size h s
  let otherSize := Sets.Size h other
  if sSize = 0 then (other, h)
  else if otherSize = 0 then (s, h)
  else
    match s, other with
    | some a, some b =>
      let r := if sSize < otherSize then b else a
      let it := if sSize < otherSize then a else b
      (some r, (h.maps it).foldl (mergeStep r) h)
    | _, _ => (s, h)

/-- Modelled from the spec: `Sets.DeepEqual` delegates to `mapEqual`
(`map_helpers.go`, not among the provided sources), the structural
equality check — the two values map every key to equal `StringSet`s.
Stated across two heaps so results of alternative executions from one
pre-state can be compared. -/
def Sets.DeepEqualH (h1 : Heap) (s : Sets) (h2 : Heap) (t : Sets) : Prop :=
  ∀ k, Sets.Lookup h1 s k = Sets.Lookup h2 t k

/-- Key membership in a `Sets` value (`Lookup`'s found flag). -/
def Sets.containsKey (h : Heap) (s : Sets) (k : String) : Bool :=
  match s with
  | none => false
  | some a => (h.hmLookup a k).isSome

/-- Outcome of a Go call that may panic. -/
inductive GoResult (α : Type) where
  | ok : α → GoResult α
  | panicked : String → GoResult α

/-- Whether a `GoResult` is a panic. -/
def GoResult.isPanicked {α : Type} : GoResult α → Bool
  | .panicked _ => true
  | .ok _ => false

/-- `Sets.MarshalJSON`: the body is a single unconditional `panic`
(message abridged; the source text says MarshalJSON must not be used
and points at `CodecEncodeSelf`). -/
def Sets.MarshalJSON (_s : Sets) : GoResult (List Nat) :=
  .panicked "MarshalJSON must not be used, use CodecEncodeSelf instead"

/-- `Sets.UnmarshalJSON`: likewise a single unconditional `panic`. -/
def Sets.UnmarshalJSON (_s : Sets) (_b : List Nat) : GoResult Unit :=
  .panicked "UnmarshalJSON must not be used, use CodecDecodeSelf instead"

/-! ## ReportArchiver (`WriteToFile` / `fileType` in the app file) -/

/-- `filepath.Ext`: the suffix beginning at the final dot in the final
slash-separated element of the path, empty if there is no dot.
Implemented by scanning the characters from the end. -/
def extRevAcc : List Char → List Char → String
  | [], _ => ""
  | c :: rest, acc =>
    if c = '/' then ""
    else if c = '.' then String.mk (c :: acc)
    else extRevAcc rest (c :: acc)

/-- `filepath.Ext`. -/
def filepathExt (path : String) : String := extRevAcc path.data.reverse []

/-- `strings.TrimSuffix`. -/
def trimSuffix (s suffix : String) : String :=
  if s.endsWith suffix then s.dropRight suffix.length else s

/-- `fileType(path)`: returns `(msgpack, gzipped, err)` where `msgpack`
selects the codec handle (0 = json, 1 = msgpack, 2 = binc, 3 = none)
and a `some` error means the (possibly `.gz`-stripped) extension is
unsupported.  Faithful to the source: the default branch reports
`gzipped = false` even when a `.gz` suffix was stripped. -/
def fileType (path : String) : Nat × Bool × Option String :=
  let ft0 := filepathExt path
  let gz : Bool := ft0 = ".gz"
  let ft := if gz then filepathExt (trimSuffix path ft0) else ft0
  if ft = ".json" then (0, gz, none)
  else if ft = ".msgpack" then (1, gz, none)
  else if ft = ".binc" then (2, gz, none)
  else (3, false, some ("Unsupported file extension: " ++ ft))

/-- File-system contents: path to byte list. -/
abbrev FS := List (String × List Nat)

/-- `os.Create`: create the file, or truncate it to length zero if it
already exists. -/
def fsCreate (fs : FS) (path : String) : FS := aset fs path []

/-- `WriteToFile(path, rep)`.  `os.Create` is modelled on its success
path; the codec encoder and the pooled gzip writer are external
libraries, abstracted by the `encoded` bytes that the chosen encoder
would produce.  Faithful to the source ordering: the file is created
(truncated) *before* `fileType` is consulted, and an unsupported
extension returns the error with the empty file left in place (the
deferred `Close` does not remove it). -/
def WriteToFile (fs : FS) (path : String) (encoded : List Nat) : Option String × FS :=
  let fs1 := fsCreate fs path
  match (fileType path).2.2 with
  | some e => (some e, fs1)
  | none => (none, aset fs1 path encoded)

/-! ## Single-node query (`handleNode`) -/

/-- `render.Nodes`: the rendered node map plus the transformer's count
of filtered-out nodes.  The node payload type is a parameter (the
`report.Node` structure is external to the provided sources). -/
structure RenderNodes (ν : Type) where
  Nodes : List (String × ν)
  Filtered : Int

/-- The decision core of `handleNode`: render without the transform,
fail with not-found only if the node is absent from that unfiltered
render; then apply the transform, and if the node was lost put the
original node back and decrement `Filtered`.  Returns `none` for the
`http.NotFound` path, otherwise the final node map and the node whose
detail is produced.  (The response writing, censoring and the
`WriteToFile("var/log/response.json", ...)` side effect are outside
this decision and external to it.) -/
def handleNodeCore {ν : Type} (rendered : RenderNodes ν)
    (transform : RenderNodes ν → RenderNodes ν) (nodeID : String) :
    Option (RenderNodes ν × ν) :=
  match alookup nodeID rendered.Nodes with
  | none => none
  | some node =>
    let nodes := transform rendered
    match alookup nodeID nodes.Nodes with
    | some filteredNode => some (nodes, filteredNode)
    | none =>
      some ({ Nodes := aset nodes.Nodes nodeID node, Filtered := nodes.Filtered - 1 }, node)

/-! ## Streaming handler (`handleWebsocket` / `websocketState.update`) -/

/-- The session parameters fixed in the Connecting phase. -/
structure WsSession where
  topologyID : String
  loop : Nat
  adjacency : Bool
  timestampParam : String
  deriving DecidableEq

/-- Observable steps of the Connecting phase, in order. -/
inductive WsEvent where
  | respondError (status : Nat) (body : String)
  | upgradeAttempt
  | upgradeFailedAbort
  | sessionCreated (sess : WsSession)
  deriving DecidableEq

/-- `websocketLoop = 1 * time.Second`, in nanoseconds. -/
def websocketLoopNs : Nat := 1000000000

/-- `url.Values.Get`: first value for the key, or `""` when absent. -/
def formGet (form : List (String × String)) (k : String) : String :=
  (alookup k form).getD ""

/-- Connecting phase of `handleWebsocket`, as the ordered list of its
observable steps.  `time.ParseDuration` (external, returns nanoseconds)
and the success of `xfer.Upgrade` are parameters; `r.ParseForm` is
modelled on its success path.  Faithful to the source: a non-empty but
unparsable `t` responds 400 with the raw value and nothing else
happens (no upgrade attempt, no session); an upgrade failure aborts
silently; otherwise the session is created with the parsed loop, the
adjacency flag (disabled only by the literal `"false"`) and the
`timestamp` parameter. -/
def handleWebsocketConnect (parseDuration : String → Option Nat) (upgradeOk : Bool)
    (topologyID : String) (form : List (String × String)) : List WsEvent :=
  let t := formGet form "t"
  let loopRes : Except String Nat :=
    if t = "" then .ok websocketLoopNs
    else
      match parseDuration t with
      | some d => .ok d
      | none => .error t
  match loopRes with
  | .error body => [.respondError 400 body]
  | .ok loop =>
    if upgradeOk then
      [.upgradeAttempt,
       .sessionCreated
         { topologyID := topologyID, loop := loop,
           adjacency := formGet form "adjacency" != "false",
           timestampParam := formGet form "timestamp" }]
    else [.upgradeAttempt, .upgradeFailedAbort]

/-- `report.Topology` (external to the provided sources): modelled
from the spec as an opaque table; `report.MakeTopology()` is the empty
one. -/
abbrev Topology := List (String × String)

/-- `report.MakeTopology()`. -/
def MakeTopology : Topology := []

/-- The slice of `report.Report` the update loop touches: the
`Endpoint` sub-table it may zero, plus the rest of the report treated
opaquely. -/
structure GoReport where
  Endpoint : Topology
  rest : List (String × String)
  deriving DecidableEq

/-- `detailed.NodeSummaries`, treated opaquely. -/
abbrev NodeSummaries := List (String × String)

/-- The per-session state `websocketState` (fields the update loop
reads or writes; the transport handle and censor config are external). -/
structure WsState where
  topologyID : String
  startReportingAt : Int
  channelOpenedAt : Int
  adjacency : Bool
  previousTopo : NodeSummaries

/-- What one update cycle observably did before transmitting. -/
structure UpdateObs where
  fetchTimestamp : Int
  renderedReport : Option GoReport
  deriving DecidableEq

/-- One cycle of `websocketState.update`.  External collaborators are
parameters: `reportFn` is `rep.Report`, `rendererFor` the registry
resolution (renderer/filter pair as an opaque id), `renderFn` the
composite `Render`/`Summaries`/`CensorNodeSummaries`, `diffFn` is
`detailed.TopoDiff`; `now` is the wall clock (nanoseconds since the
epoch, so `time.Since(channelOpenedAt) = now - channelOpenedAt`).
Faithful cycle order: compute `reportTimestamp = startReportingAt +
(now - channelOpenedAt)`; fetch; if the fetch fails the cycle is fatal;
if adjacency is disabled replace `Endpoint` with `MakeTopology()`
before anything else touches the report; resolve the renderer (failure
fatal); render/summarize/censor, diff against `previousTopo` and store
the new summary.  The transmit (`conn.WriteJSON`) is external I/O and
only turns an unexpected close error into a fatal result, so it is not
modelled. -/
def wsUpdate (reportFn : Int → Except String GoReport)
    (rendererFor : String → GoReport → Except String Nat)
    (renderFn : GoReport → Nat → NodeSummaries)
    (diffFn : NodeSummaries → NodeSummaries → List String)
    (now : Int) (wc : WsState) :
    UpdateObs × Except String (WsState × List String) :=
  let timestampDelta := now - wc.channelOpenedAt
  let reportTimestamp := wc.startReportingAt + timestampDelta
  match reportFn reportTimestamp with
  | .error e =>
    ({ fetchTimestamp := reportTimestamp, renderedReport := none },
     .error ("Error generating report: " ++ e))
  | .ok re0 =>
    let re := if wc.adjacency = false then { re0 with Endpoint := MakeTopology } else re0
    match rendererFor wc.topologyID re with
    | .error e =>
      ({ fetchTimestamp := reportTimestamp, renderedReport := none },
       .error ("Error generating report: " ++ e))
    | .ok renderer =>
      let newTopo := renderFn re renderer
      let diff := diffFn wc.previousTopo newTopo
      ({ fetchTimestamp := reportTimestamp, renderedReport := some re },
       .ok ({ wc with previousTopo := newTopo }, diff))

/-! ## Lemmas about `ssUnion` -/

theorem ssUnion_nil_left (t : List String) : ssUnion [] t = t := by
  simp [ssUnion]

theorem ssUnion_nil_right (s : List String) : ssUnion s [] = s := by
  cases s <;> simp [ssUnion]

theorem ssUnion_cons_cons (a b : String) (s t : List String) :
    ssUnion (a :: s) (b :: t) =
      if a < b then a :: ssUnion s (b :: t)
      else if b < a then b :: ssUnion (a :: s) t
      else a :: ssUnion s t := by
  rw [ssUnion]

theorem ssUnion_mem_aux (n : Nat) :
    ∀ s t : List String, s.length + t.length ≤ n →
      ∀ x, x ∈ ssUnion s t ↔ x ∈ s ∨ x ∈ t := by
  induction n with
  | zero =>
    intro s t hle x
    cases s with
    | nil => simp [ssUnion_nil_left]
    | cons a s => simp at hle
  | succ n ih =>
    intro s t hle x
    cases s with
    | nil => simp [ssUnion_nil_left]
    | cons a s =>
      cases t with
      | nil => simp [ssUnion_nil_right]
      | cons b t =>
        rw [ssUnion_cons_cons]
        rcases lt_trichotomy a b with hab | hab | hab
        · rw [if_pos hab]
          have hrec := ih s (b :: t) (by simp only [List.length_cons] at hle ⊢; omega) x
          simp [hrec]
          tauto
        · rw [if_neg (by simp [hab]), if_neg (by simp [hab])]
          have hrec := ih s t (by simp only [List.length_cons] at hle ⊢; omega) x
          subst hab
          simp [hrec]
          tauto
        · rw [if_neg (lt_asymm hab), if_pos hab]
          have hrec := ih (a :: s) t (by simp only [List.length_cons] at hle ⊢; omega) x
          simp at hrec
          simp [hrec]
          tauto

theorem ssUnion_mem (s t : List String) (x : String) :
    x ∈ ssUnion s t ↔ x ∈ s ∨ x ∈ t :=
  ssUnion_mem_aux (s.length + t.length) s t le_rfl x

theorem ssUnion_self (s : List String) : ssUnion s s = s := by
  induction s with
  | nil => exact ssUnion_nil_left []
  | cons a s ih =>
    rw [ssUnion_cons_cons, if_neg (lt_irrefl a), if_neg (lt_irrefl a), ih]

theorem ssUnion_comm_aux (n : Nat) :
    ∀ s t : List String, s.length + t.length ≤ n → ssUnion s t = ssUnion t s := by
  induction n with
  | zero =>
    intro s t hle
    cases s with
    | nil => rw [ssUnion_nil_left, ssUnion_nil_right]
    | cons a s => simp at hle
  | succ n ih
  =>
    intro s t hle
    cases s with
    | nil => rw [ssUnion_nil_left, ssUnion_nil_right]
    | cons a s =>
      cases t with
      | nil => rw [ssUnion_nil_left, ssUnion_nil_right]
      | cons b t =>
        rw [ssUnion_cons_cons, ssUnion_cons_cons]
        rcases lt_trichotomy a b with hab | hab | hab
        · rw [if_pos hab, if_neg (lt_asymm hab), if_pos hab,
            ih s (b :: t) (by simp only [List.length_cons] at hle ⊢; omega)]
        · subst hab
          rw [if_neg (lt_irrefl a), if_neg (lt_irrefl a), if_neg (lt_irrefl a),
            if_neg (lt_irrefl a), ih s t (by simp only [List.length_cons] at hle ⊢; omega)]
        · rw [if_neg (lt_asymm hab), if_pos hab, if_pos hab,
            ih (a :: s) t (by simp only [List.length_cons] at hle ⊢; omega)]

theorem ssUnion_comm (s t : List String) : ssUnion s t = ssUnion t s :=
  ssUnion_comm_aux (s.length + t.length) s t le_rfl

/-! ## Lemmas about `alookup` / `aset` -/

theorem alookup_aset_self {β : Type} (l : List (String × β)) (k : String) (v : β) :
    alookup k (aset l k v) = some v := by
  induction l with
  | nil => simp [aset, alookup]
  | cons p l ih =>
    by_cases hp : p.1 = k
    · simp [aset, hp, alookup]
    · simp [aset, hp, alookup, ih]

theorem alookup_aset_other {β : Type} (l : List (String × β)) (k k' : String) (v : β)
    (hne : k' ≠ k) : alookup k' (aset l k v) = alookup k' l := by
  have hkk : k ≠ k' := Ne.symm hne
  induction l with
  | nil => simp [aset, alookup, hkk]
  | cons p l ih =>
    by_cases hp : p.1 = k
    · subst hp
      simp [aset, alookup, hkk]
    · simp [aset, hp, alookup, ih]

theorem alookup_eq_none_of_not_mem {β : Type} (l : List (String × β)) (k : String)
    (h : k ∉ l.map Prod.fst) : alookup k l = none := by
  induction l with
  | nil => rfl
  | cons p l ih =>
    simp only [List.map_cons, List.mem_cons, not_or] at h
    have h1 : p.1 ≠ k := fun hh => h.1 hh.symm
    simp [alookup, h1, ih h.2]

/-! ## Lemmas about the heap and `mergeStep` -/

/-- The set stored under an optional lookup result, empty when absent
(`Sets.Lookup`'s first component). -/
def stringsOf (o : Option StringSet) : StringSet := o.getD MakeStringSet

theorem hmSet_lookup_self (h : Heap) (a : Nat) (k : String) (v : StringSet) :
    (h.hmSet a k v).hmLookup a k = some v := by
  simp [Heap.hmSet, Heap.hmLookup, alookup_aset_self]

theorem hmSet_lookup_other (h : Heap) (a : Nat) (k k' : String) (v : StringSet)
    (hne : k' ≠ k) : (h.hmSet a k v).hmLookup a k' = h.hmLookup a k' := by
  simp [Heap.hmSet, Heap.hmLookup, alookup_aset_other _ _ _ _ hne]

theorem mergeStep_lookup_self (r : Nat) (h : Heap) (kv : String × StringSet) :
    (mergeStep r h kv).hmLookup r kv.1 =
      some (ssUnion (stringsOf (h.hmLookup r kv.1)) kv.2) := by
  unfold mergeStep
  cases hcur : h.hmLookup r kv.1 with
  | none =>
    simp [stringsOf, MakeStringSet, ssUnion_nil_left, hmSet_lookup_self]
  | some ex =>
    by_cases hm : (StringSet.Merge ex kv.2).2
    · have hu : ssUnion ex kv.2 = ex := of_decide_eq_true hm
      simp [hm, hcur, stringsOf, hu]
    · simp only [Bool.not_eq_true] at hm
      have hne : ¬ ssUnion ex kv.2 = ex := by simpa [StringSet.Merge] using hm
      simp [hm, stringsOf, hmSet_lookup_self, StringSet.Merge, hne]

theorem mergeStep_lookup_other (r : Nat) (h : Heap) (kv : String × StringSet) (k : String)
    (hne : k ≠ kv.1) : (mergeStep r h kv).hmLookup r k = h.hmLookup r k := by
  unfold mergeStep
  cases hcur : h.hmLookup r kv.1 with
  | none => exact hmSet_lookup_other h r kv.1 k kv.2 hne
  | some ex =>
    by_cases hm : (StringSet.Merge ex kv.2).2
    · simp [hm]
    · simp only [Bool.not_eq_true] at hm
      simp [hm, hmSet_lookup_other h r kv.1 k _ hne]

/-- Effect of the whole `ForEach` fold of `Sets.Merge` on a lookup in
the result map: keys not visited are untouched, a visited key holds
the union of what the result map held with the visited value. -/
theorem mergeFold_lookup (es : GoMap) (r : Nat) (k : String) :
    ∀ h : Heap, (es.map Prod.fst).Nodup →
      ((es.foldl (mergeStep r) h).hmLookup r k =
        match alookup k es with
        | none => h.hmLookup r k
        | some v => some (ssUnion (stringsOf (h.hmLookup r k)) v)) := by
  induction es with
  | nil => intro h _; rfl
  | cons p es ih =>
    intro h hnd
    obtain ⟨k0, v0⟩ := p
    simp only [List.map_cons, List.nodup_cons] at hnd
    obtain ⟨hk0, hnd'⟩ := hnd
    simp only [List.foldl_cons]
    rw [ih (mergeStep r h (k0, v0)) hnd']
    by_cases hkk : k0 = k
    · subst hkk
      rw [alookup_eq_none_of_not_mem es k0 hk0]
      have : alookup k0 ((k0, v0) :: es) = some v0 := by simp [alookup]
      rw [this]
      exact mergeStep_lookup_self r h (k0, v0)
    · have : alookup k ((k0, v0) :: es) = alookup k es := by simp [alookup, hkk]
      rw [this, mergeStep_lookup_other r h (k0, v0) k (fun hh => hkk hh.symm)]

theorem size_zero_lookup (h : Heap) (s : Sets) (k : String)
    (hz : Sets.Size h s = 0) : Sets.Lookup h s k = (MakeStringSet, false) := by
  cases s with
  | none => rfl
  | some a =>
    have hempty : h.maps a = [] := List.length_eq_zero.mp hz
    simp [Sets.Lookup, Heap.hmLookup, hempty, alookup]

theorem lookup_some_eq (h : Heap) (a : Nat) (k : String) :
    Sets.Lookup h (some a) k = (stringsOf (h.hmLookup a k), (h.hmLookup a k).isSome) := by
  cases hx : h.hmLookup a k <;> simp [Sets.Lookup, hx, stringsOf]

/-- `mergeFold_lookup` phrased on the iterated map of the heap. -/
theorem mergeInto_lookup (h : Heap) (r it : Nat) (k : String)
    (hnd : ((h.maps it).map Prod.fst).Nodup) :
    ((h.maps it).foldl (mergeStep r) h).hmLookup r k =
      match h.hmLookup it k with
      | none => h.hmLookup r k
      | some v => some (ssUnion (stringsOf (h.hmLookup r k)) v) :=
  mergeFold_lookup (h.maps it) r k h hnd

/-! ## Claim theorems -/

/-- **C1** (status: code_bug).  The claim — every mutating operation
returns a new value and never alters what a previously obtained `Sets`
observes — matches the source comment "Sets is … immutable", but the
code violates it: starting from the initial heap, `s := MakeSets()`
looks up `"x"` as absent, yet after `s.AddString("x", "a")` (which
mutates the shared global `CustomHashmap` in place and returns the
very same reference) the *original* `s` suddenly observes
`({"a"}, true)`. -/
theorem addString_mutates_prior_value :
    Sets.Lookup initHeap MakeSets "x" = (MakeStringSet, false) ∧
    Sets.Lookup (Sets.AddString initHeap MakeSets "x" "a").2 MakeSets "x" = (["a"], true) ∧
    (Sets.AddString initHeap MakeSets "x" "a").1 = MakeSets := by
  refine ⟨rfl, ?_, rfl⟩
  decide

/-- **C6** (status: confirmed).  For every heap, every `Sets` value
(including the nil-backed zero value) and every key it does not
contain, `Lookup` returns the empty `StringSet` with `found = false`;
the embedded `Lookup` is total, so no error outcome exists. -/
theorem lookup_absent_empty_notfound (h : Heap) (s : Sets) (k : String)
    (habs : Sets.containsKey h s k = false) :
    Sets.Lookup h s k = (MakeStringSet, false) := by
  cases s with
  | none => rfl
  | some a =>
    cases hx : h.hmLookup a k with
    | none => simp [Sets.Lookup, hx]
    | some v => simp [Sets.containsKey, hx] at habs

/-- Witness for C6 at a concrete input. -/
theorem lookup_absent_empty_notfound_witness :
    Sets.containsKey initHeap MakeSets "absent" = false ∧
    Sets.Lookup initHeap MakeSets "absent" = (MakeStringSet, false) :=
  ⟨by decide, lookup_absent_empty_notfound initHeap MakeSets "absent" (by decide)⟩

/-- **C2** (status: confirmed).  For all `Sets` values and every key,
the merge result's lookup (in the post-merge heap) is exactly the
set-union of the two operands' pre-merge lookups, and its found flag
is the disjunction of theirs.  The well-formedness hypothesis records
that no Go map holds duplicate keys. -/
theorem merge_lookup_union (h : Heap) (s1 s2 : Sets) (k : String) (hwf : h.WF) :
    (∀ x, x ∈ (Sets.Lookup (Sets.Merge h s1 s2).2 (Sets.Merge h s1 s2).1 k).1 ↔
        x ∈ (Sets.Lookup h s1 k).1 ∨ x ∈ (Sets.Lookup h s2 k).1) ∧
    (Sets.Lookup (Sets.Merge h s1 s2).2 (Sets.Merge h s1 s2).1 k).2 =
      ((Sets.Lookup h s1 k).2 || (Sets.Lookup h s2 k).2) := by
  by_cases h1 : Sets.Size h s1 = 0
  · have e : Sets.Merge h s1 s2 = (s2, h) := by simp [Sets.Merge, h1]
    rw [e, size_zero_lookup h s1 k h1]
    simp [MakeStringSet]
  · by_cases h2 : Sets.Size h s2 = 0
    · have e : Sets.Merge h s1 s2 = (s1, h) := by simp [Sets.Merge, h1, h2]
      rw [e, size_zero_lookup h s2 k h2]
      simp [MakeStringSet]
    · obtain ⟨a, rfl⟩ : ∃ a, s1 = some a := by
        cases s1 with
        | none => exact absurd rfl h1
        | some a => exact ⟨a, rfl⟩
      obtain ⟨b, rfl⟩ : ∃ b, s2 = some b := by
        cases s2 with
        | none => exact absurd rfl h2
        | some b => exact ⟨b, rfl⟩
      by_cases hlt : Sets.Size h (some a) < Sets.Size h (some b)
      · have e : Sets.Merge h (some a) (some b) =
            (some b, (h.maps a).foldl (mergeStep b) h) := by
          simp [Sets.Merge, h1, h2, hlt]
        rw [e]
        simp only [lookup_some_eq]
        rw [mergeInto_lookup h b a k (hwf a)]
        cases hka : h.hmLookup a k with
        | none => simp [stringsOf, MakeStringSet]
        | some v =>
          constructor
          · intro x
            simp only [stringsOf, Option.getD_some]
            rw [ssUnion_mem]
            tauto
          · simp
      · have e : Sets.Merge h (some a) (some b) =
            (some a, (h.maps b).foldl (mergeStep a) h) := by
          simp [Sets.Merge, h1, h2, hlt]
        rw [e]
        simp only [lookup_some_eq]
        rw [mergeInto_lookup h a b k (hwf b)]
        cases hkb : h.hmLookup b k with
        | none => simp [stringsOf, MakeStringSet]
        | some v =>
          constructor
          · intro x
            simp only [stringsOf, Option.getD_some]
            rw [ssUnion_mem]
          · simp

/-- A concrete nontrivial heap used by witnesses: the map at address 0
holds `x ↦ {"1"}`, the one at address 1 holds `x ↦ {"2"}, y ↦ {"3"}`. -/
def exHeap : Heap :=
  ⟨fun a => if a = 0 then [("x", ["1"])] else if a = 1 then [("x", ["2"]), ("y", ["3"])] else []⟩

theorem exHeap_wf : exHeap.WF := by
  intro a
  by_cases h0 : a = 0
  · subst h0; decide
  · by_cases ha1 : a = 1
    · subst ha1; decide
    · simp [exHeap, h0, ha1]

/-- Witness for C2 at a concrete input. -/
theorem merge_lookup_union_witness :
    Heap.WF exHeap ∧
    ("2" ∈ (Sets.Lookup (Sets.Merge exHeap (some 0) (some 1)).2
          (Sets.Merge exHeap (some 0) (some 1)).1 "x").1 ↔
        "2" ∈ (Sets.Lookup exHeap (some 0) "x").1 ∨
        "2" ∈ (Sets.Lookup exHeap (some 1) "x").1) ∧
    (Sets.Lookup (Sets.Merge exHeap (some 0) (some 1)).2
        (Sets.Merge exHeap (some 0) (some 1)).1 "x").2 =
      ((Sets.Lookup exHeap (some 0) "x").2 || (Sets.Lookup exHeap (some 1) "x").2) :=
  ⟨exHeap_wf, (merge_lookup_union exHeap (some 0) (some 1) "x" exHeap_wf).1 "2",
    (merge_lookup_union exHeap (some 0) (some 1) "x" exHeap_wf).2⟩

/-- **C3** (status: confirmed).  `Merge` is idempotent and commutative
up to the structural `DeepEqual`: merging a value with itself yields a
value that looks up equal to the original everywhere, and the results
of `s1.Merge(s2)` and `s2.Merge(s1)` (each run from the same
pre-state) look up equal everywhere. -/
theorem merge_idempotent_commutative (h : Heap) (s s1 s2 : Sets) (hwf : h.WF) :
    Sets.DeepEqualH (Sets.Merge h s s).2 (Sets.Merge h s s).1 h s ∧
    Sets.DeepEqualH (Sets.Merge h s1 s2).2 (Sets.Merge h s1 s2).1
      (Sets.Merge h s2 s1).2 (Sets.Merge h s2 s1).1 := by
  constructor
  · by_cases hz : Sets.Size h s = 0
    · have e : Sets.Merge h s s = (s, h) := by simp [Sets.Merge, hz]
      rw [e]
      intro k
      rfl
    · obtain ⟨a, rfl⟩ : ∃ a, s = some a := by
        cases s with
        | none => exact absurd rfl hz
        | some a => exact ⟨a, rfl⟩
      have e : Sets.Merge h (some a) (some a) =
          (some a, (h.maps a).foldl (mergeStep a) h) := by
        simp [Sets.Merge, hz]
      rw [e]
      intro k
      rw [lookup_some_eq, lookup_some_eq, mergeInto_lookup h a a k (hwf a)]
      cases hka : h.hmLookup a k with
      | none => rfl
      | some v => simp [stringsOf, ssUnion_self]
  · by_cases hz1 : Sets.Size h s1 = 0
    · by_cases hz2 : Sets.Size h s2 = 0
      · have e12 : Sets.Merge h s1 s2 = (s2, h) := by simp [Sets.Merge, hz1]
        have e21 : Sets.Merge h s2 s1 = (s1, h) := by simp [Sets.Merge, hz2]
        rw [e12, e21]
        intro k
        rw [size_zero_lookup h s1 k hz1, size_zero_lookup h s2 k hz2]
      · have e12 : Sets.Merge h s1 s2 = (s2, h) := by simp [Sets.Merge, hz1]
        have e21 : Sets.Merge h s2 s1 = (s2, h) := by simp [Sets.Merge, hz1, hz2]
        rw [e12, e21]
        intro k
        rfl
    · by_cases hz2 : Sets.Size h s2 = 0
      · have e12 : Sets.Merge h s1 s2 = (s1, h) := by simp [Sets.Merge, hz1, hz2]
        have e21 : Sets.Merge h s2 s1 = (s1, h) := by simp [Sets.Merge, hz2]
        rw [e12, e21]
        intro k
        rfl
      · obtain ⟨a, rfl⟩ : ∃ a, s1 = some a := by
          cases s1 with
          | none => exact absurd rfl hz1
          | some a => exact ⟨a, rfl⟩
        obtain ⟨b, rfl⟩ : ∃ b, s2 = some b := by
          cases s2 with
          | none => exact absurd rfl hz2
          | some b => exact ⟨b, rfl⟩
        rcases lt_trichotomy (Sets.Size h (some a)) (Sets.Size h (some b)) with hlt | heq | hgt
        · have e12 : Sets.Merge h (some a) (some b) =
              (some b, (h.maps a).foldl (mergeStep b) h) := by
            simp [Sets.Merge, hz1, hz2, hlt]
          have e21 : Sets.Merge h (some b) (some a) =
              (some b, (h.maps a).foldl (mergeStep b) h) := by
            simp [Sets.Merge, hz1, hz2, not_lt_of_lt hlt]
          rw [e12, e21]
          intro k
          rfl
        · have e12 : Sets.Merge h (some a) (some b) =
              (some a, (h.maps b).foldl (mergeStep a) h) := by
            simp [Sets.Merge, hz1, hz2, heq, lt_irrefl]
          have e21 : Sets.Merge h (some b) (some a) =
              (some b, (h.maps a).foldl (mergeStep b) h) := by
            simp [Sets.Merge, hz1, hz2, heq, lt_irrefl]
          rw [e12, e21]
          intro k
          rw [lookup_some_eq, lookup_some_eq,
            mergeInto_lookup h a b k (hwf b), mergeInto_lookup h b a k (hwf a)]
          cases hka : h.hmLookup a k with
          | none =>
            cases hkb : h.hmLookup b k with
            | none => rfl
            | some v => simp [stringsOf, MakeStringSet, ssUnion_nil_left]
          | some w =>
            cases hkb : h.hmLookup b k with
            | none => simp [stringsOf, MakeStringSet, ssUnion_nil_left]
            | some v => simp [stringsOf, ssUnion_comm w v]
        · have e12 : Sets.Merge h (some a) (some b) =
              (some a, (h.maps b).foldl (mergeStep a) h) := by
            simp [Sets.Merge, hz1, hz2, not_lt_of_lt hgt]
          have e21 : Sets.Merge h (some b) (some a) =
              (some a, (h.maps b).foldl (mergeStep a) h) := by
            simp [Sets.Merge, hz1, hz2, hgt]
          rw [e12, e21]
          intro k
          rfl

/-- Witness for C3 at a concrete input. -/
theorem merge_idempotent_commutative_witness :
    Heap.WF exHeap ∧
    Sets.Lookup (Sets.Merge exHeap (some 0) (some 0)).2
        (Sets.Merge exHeap (some 0) (some 0)).1 "x" =
      Sets.Lookup exHeap (some 0) "x" ∧
    Sets.Lookup (Sets.Merge exHeap (some 0) (some 1)).2
        (Sets.Merge exHeap (some 0) (some 1)).1 "x" =
      Sets.Lookup (Sets.Merge exHeap (some 1) (some 0)).2
        (Sets.Merge exHeap (some 1) (some 0)).1 "x" :=
  ⟨exHeap_wf,
   (merge_idempotent_commutative exHeap (some 0) (some 0) (some 1) exHeap_wf).1 "x",
   (merge_idempotent_commutative exHeap (some 0) (some 0) (some 1) exHeap_wf).2 "x"⟩

/-- **C4** (status: confirmed).  If the node id is present in the
unfiltered render, `handleNode` never takes the not-found path: when
the transform kept the node the filtered graph is used as is, and when
the transform dropped it the original node is reinserted into the
filtered result and the transform's `Filtered` count is decremented by
exactly one. -/
theorem handleNode_reinserts_lost_node {ν : Type} (rendered : RenderNodes ν)
    (transform : RenderNodes ν → RenderNodes ν) (nodeID : String) (node : ν)
    (hfound : alookup nodeID rendered.Nodes = some node) :
    ∃ res, handleNodeCore rendered transform nodeID = some res ∧
      (∀ fn, alookup nodeID (transform rendered).Nodes = some fn →
        res = (transform rendered, fn)) ∧
      (alookup nodeID (transform rendered).Nodes = none →
        res.1.Nodes = aset (transform rendered).Nodes nodeID node ∧
        res.1.Filtered = (transform rendered).Filtered - 1 ∧
        res.2 = node ∧
        alookup nodeID res.1.Nodes = some node) := by
  simp only [handleNodeCore, hfound]
  cases hf : alookup nodeID (transform rendered).Nodes with
  | some fn =>
    refine ⟨(transform rendered, fn), rfl, ?_, ?_⟩
    · intro fn' hfn'
      have := Option.some.inj hfn'
      subst this
      rfl
    · intro hnone
      simp at hnone
  | none =>
    refine ⟨({ Nodes := aset (transform rendered).Nodes nodeID node,
               Filtered := (transform rendered).Filtered - 1 }, node), rfl, ?_, ?_⟩
    · intro fn' hfn'
      simp at hfn'
    · intro _
      exact ⟨rfl, rfl, rfl, alookup_aset_self _ _ _⟩

/-- Witness for C4 at a concrete input: the transform drops node
`"n1"`, which is nevertheless found and reinserted. -/
theorem handleNode_reinserts_lost_node_witness :
    alookup "n1" [("n1", (7 : Nat))] = some 7 ∧
    ∃ res, handleNodeCore (RenderNodes.mk [("n1", (7 : Nat))] 3)
        (fun _ => RenderNodes.mk [] 5) "n1" = some res ∧
      alookup "n1" res.1.Nodes = some 7 ∧ res.1.Filtered = 5 - 1 := by
  refine ⟨by decide, ?_⟩
  obtain ⟨res, hres, _, hlost⟩ :=
    handleNode_reinserts_lost_node (RenderNodes.mk [("n1", (7 : Nat))] 3)
      (fun _ => RenderNodes.mk [] 5) "n1" 7 (by decide)
  obtain ⟨_, hfil, _, hlook⟩ := hlost rfl
  exact ⟨res, hres, hlook, hfil⟩

/-- **C5** counterexample (status: corrected).  At the concrete call
`WriteToFile(fs = empty, path = "report.xml")` the claim "no zero-length
file is created before the format failure is reported" fails: the
call does return a format error, but the file was created (empty) by
`os.Create` before `fileType` ran, and it is left behind. -/
theorem writeToFile_leaves_empty_artifact :
    (WriteToFile [] "report.xml" [1]).1.isSome = true ∧
    alookup "report.xml" (WriteToFile [] "report.xml" [1]).2 = some [] := by
  constructor
  · rfl
  · rfl

/-- **C5** amended (status: corrected).  For every path whose suffix is
unsupported, `WriteToFile` returns the format error, but the output
file has already been created (truncated to zero length) and is left
behind. -/
theorem writeToFile_unsupported_error_artifact (fs : FS) (path : String) (encoded : List Nat)
    (herr : (fileType path).2.2.isSome = true) :
    (WriteToFile fs path encoded).1 = (fileType path).2.2 ∧
    alookup path (WriteToFile fs path encoded).2 = some [] := by
  unfold WriteToFile
  cases he : (fileType path).2.2 with
  | none => rw [he] at herr; simp at herr
  | some e => simp [fsCreate, alookup_aset_self]

/-- Witness for the amended C5 at a concrete input. -/
theorem writeToFile_unsupported_error_artifact_witness :
    (fileType "report.xml").2.2.isSome = true ∧
    (WriteToFile [] "report.xml" [1]).1 = (fileType "report.xml").2.2 ∧
    alookup "report.xml" (WriteToFile [] "report.xml" [1]).2 = some [] :=
  ⟨by decide,
   (writeToFile_unsupported_error_artifact [] "report.xml" [1] (by decide)).1,
   (writeToFile_unsupported_error_artifact [] "report.xml" [1] (by decide)).2⟩

/-- **C9** (status: confirmed).  Every update cycle fetches the
snapshot at `startReportingAt + (now - channelOpenedAt)`: the
replay-origin timestamp advanced by exactly the wall-clock time since
the session opened (rate 1:1, no fast-forward), whatever the cycle's
outcome. -/
theorem update_replay_timestamp (rf : Int → Except String GoReport)
    (rr : String → GoReport → Except String Nat) (rd : GoReport → Nat → NodeSummaries)
    (df : NodeSummaries → NodeSummaries → List String) (now : Int) (wc : WsState) :
    (wsUpdate rf rr rd df now wc).1.fetchTimestamp =
      wc.startReportingAt + (now - wc.channelOpenedAt) := by
  simp only [wsUpdate]
  cases rf (wc.startReportingAt + (now - wc.channelOpenedAt)) with
  | error e => rfl
  | ok re0 =>
    dsimp only
    cases rr wc.topologyID
        (if wc.adjacency = false then { re0 with Endpoint := MakeTopology } else re0) with
    | error e => rfl
    | ok rid => rfl

/-- **C7** (status: confirmed).  In the Connecting phase: an absent
`t` parameter yields exactly the default poll interval of one second
(10^9 ns) and proceeds to the upgrade; a present but unparsable `t`
produces only the 400 client-input response — no upgrade attempt and
no session, for every possible upgrade outcome. -/
theorem websocket_poll_interval (pd : String → Option Nat) (ok : Bool)
    (tid : String) (form : List (String × String)) :
    (formGet form "t" = "" →
      handleWebsocketConnect pd ok tid form =
        if ok then
          [WsEvent.upgradeAttempt,
           WsEvent.sessionCreated
             { topologyID := tid, loop := websocketLoopNs,
               adjacency := formGet form "adjacency" != "false",
               timestampParam := formGet form "timestamp" }]
        else [WsEvent.upgradeAttempt, WsEvent.upgradeFailedAbort]) ∧
    (formGet form "t" ≠ "" → pd (formGet form "t") = none →
      handleWebsocketConnect pd ok tid form =
        [WsEvent.respondError 400 (formGet form "t")]) := by
  constructor
  · intro ht
    simp [handleWebsocketConnect, ht]
  · intro ht hpd
    simp [handleWebsocketConnect, ht, hpd]

/-- Witness for C7: both branches at concrete inputs. -/
theorem websocket_poll_interval_witness :
    handleWebsocketConnect (fun _ => none) true "hosts" [] =
      [WsEvent.upgradeAttempt,
       WsEvent.sessionCreated ⟨"hosts", websocketLoopNs, true, ""⟩] ∧
    handleWebsocketConnect (fun _ => none) true "hosts" [("t", "bogus")] =
      [WsEvent.respondError 400 "bogus"] :=
  ⟨((websocket_poll_interval (fun _ => none) true "hosts" []).1 (by decide)).trans (by decide),
   ((websocket_poll_interval (fun _ => none) true "hosts" [("t", "bogus")]).2
      (by decide) rfl).trans (by decide)⟩

/-- **C8** (status: confirmed).  The session's adjacency flag equals
`adjacency-parameter ≠ "false"` — enabled by default and disabled only
by the literal `"false"` — and in every update cycle that reaches the
renderer while adjacency is disabled, the report handed to the
renderer has its `Endpoint` sub-table replaced by the empty topology. -/
theorem websocket_adjacency (pd : String → Option Nat) (ok : Bool) (tid : String)
    (form : List (String × String)) (rf : Int → Except String GoReport)
    (rr : String → GoReport → Except String Nat) (rd : GoReport → Nat → NodeSummaries)
    (df : NodeSummaries → NodeSummaries → List String) (now : Int) (wc : WsState) :
    (∀ s, WsEvent.sessionCreated s ∈ handleWebsocketConnect pd ok tid form →
        s.adjacency = (formGet form "adjacency" != "false")) ∧
    (∀ re, (wsUpdate rf rr rd df now wc).1.renderedReport = some re →
        wc.adjacency = false → re.Endpoint = MakeTopology) := by
  constructor
  · intro s hs
    simp only [handleWebsocketConnect] at hs
    by_cases ht : formGet form "t" = ""
    · simp only [ht, if_true, reduceIte] at hs
      cases ok with
      | true => simp at hs; subst hs; rfl
      | false => simp at hs
    · simp only [ht, reduceIte] at hs
      cases hpd : pd (formGet form "t") with
      | none => rw [hpd] at hs; simp at hs
      | some d =>
        rw [hpd] at hs
        cases ok with
        | true => simp at hs; subst hs; rfl
        | false => simp at hs
  · intro re hre hadj
    simp only [wsUpdate] at hre
    cases hrf : rf (wc.startReportingAt + (now - wc.channelOpenedAt)) with
    | error e => rw [hrf] at hre; simp at hre
    | ok re0 =>
      rw [hrf] at hre
      rw [hadj] at hre
      simp only [reduceIte] at hre
      cases hrr : rr wc.topologyID { re0 with Endpoint := MakeTopology } with
      | error e => rw [hrr] at hre; simp at hre
      | ok rid =>
        rw [hrr] at hre
        simp only [Option.some.injEq] at hre
        subst hre
        rfl

/-- Witness for C8: the literal `"false"` parameter yields a disabled
flag, and a disabled cycle renders a report whose `Endpoint` is the
empty topology. -/
theorem websocket_adjacency_witness :
    (WsSession.mk "hosts" websocketLoopNs false "").adjacency =
      (formGet [("adjacency", "false")] "adjacency" != "false") ∧
    (GoReport.mk MakeTopology [("r", "2")]).Endpoint = MakeTopology :=
  ⟨(websocket_adjacency (fun _ => none) true "hosts" [("adjacency", "false")]
      (fun _ => Except.ok (GoReport.mk [("e", "1")] [("r", "2")]))
      (fun _ _ => Except.ok 0) (fun _ _ => []) (fun _ _ => []) 5
      (WsState.mk "hosts" 100 2 false [])).1
      (WsSession.mk "hosts" websocketLoopNs false "") (by decide),
   (websocket_adjacency (fun _ => none) true "hosts" [("adjacency", "false")]
      (fun _ => Except.ok (GoReport.mk [("e", "1")] [("r", "2")]))
      (fun _ _ => Except.ok 0) (fun _ _ => []) (fun _ _ => []) 5
      (WsState.mk "hosts" 100 2 false [])).2
      (GoReport.mk MakeTopology [("r", "2")]) (by decide) rfl⟩

/-- **C10** (status: confirmed).  `Sets.MarshalJSON` and
`Sets.UnmarshalJSON` panic unconditionally for every receiver and
every input; neither ever produces a value, so the standard JSON
marshalling interface is unusable for `Sets`. -/
theorem marshalJSON_never_returns (s : Sets) (b : List Nat) :
    (Sets.MarshalJSON s).isPanicked = true ∧ (Sets.UnmarshalJSON s b).isPanicked = true :=
  ⟨rfl, rfl⟩

end ThreatMapper
